import Mathlib

/-!
Verification of the drink-dispensing watch loop (`main.py`).

The program polls a transcript file; when its modification time changes it
reads the last non-empty line and, if that line differs from the previously
processed one, submits it to an oracle.  If the oracle selects a registered
action, the action is invoked and, when its result compares equal (Python
`==`) to `True`, the process calls `exit(0)`.  A flag-file write placed
after the `exit(0)` call follows it in the source.

The embedding below is a direct translation of `main.py`:
`run_gemini_conversation`, `get_last_line` and the body of `main`'s
`while True` loop (`poll_cycle` / `main_loop`).  External collaborators
(the filesystem, the Gemini response and the `dispense_drink` tool result)
are inputs to each cycle.
-/

/-- A fragment of Python runtime values large enough for the program:
`None`, booleans, integers and strings.  The `dispense_drink` tool may
return any of these. -/
inductive PyVal where
  | none
  | bool (b : Bool)
  | int (n : Int)
  | str (s : String)
  deriving DecidableEq

/-- Numeric view used by Python `==`: in Python, `bool` is a subtype of
`int`, so `True` compares equal to `1` and `False` to `0`. -/
def PyVal.toIntVal : PyVal → Option Int
  | .bool b => some (if b then 1 else 0)
  | .int n => some n
  | _ => Option.none

/-- Python `==` on this fragment: numbers (booleans included) compare by
numeric value; `None` and strings compare within their own type; any other
cross-type comparison is `False`. -/
def pyEq (a b : PyVal) : Bool :=
  match a.toIntVal, b.toIntVal with
  | some x, some y => x == y
  | _, _ =>
    match a, b with
    | .none, .none => true
    | .str s, .str t => s == t
    | _, _ => false

/-- Observable events of one run: the existence check at the top of the
loop body, the file read in `get_last_line`, the `generate_content` call,
the tool invocation, the various `print` logs, the `exit` call and the
flag-file write. -/
inductive Event where
  | pollCheck
  | readFile
  | oracleCall (user_prompt : String)
  | actionCall (name : String) (args : List (String × PyVal))
  | logFunctionResult
  | logSuccess
  | exitCall (code : Nat)
  | flagWrite
  | logUnknownAction (name : String)
  | logNoFunctionCall
  | logText
  | logNonText
  deriving DecidableEq

/-- Straight-line statements, enough to express the success branch of
`run_gemini_conversation` with its source ordering preserved. -/
inductive Stmt where
  | emit (e : Event)
  | exitStmt (code : Nat)

/-- Executing a statement list: an `exit` call terminates the process,
so nothing after it runs.  Returns the emitted events and the exit code
if `exit` was reached. -/
def execStmts : List Stmt → List Event × Option Nat
  | [] => ([], Option.none)
  | .emit e :: rest =>
    let r := execStmts rest
    (e :: r.1, r.2)
  | .exitStmt n :: _ => ([Event.exitCall n], some n)

/-- The success branch of `run_gemini_conversation` in source order
(lines 77-82 of `main.py`): the success log, `exit(0)`, and then the
flag-file write, which stands after the exit call. -/
def success_branch : List Stmt :=
  [Stmt.emit .logSuccess, Stmt.exitStmt 0, Stmt.emit .flagWrite]

/-- The tool mapping of `main.py`: a single registered action name.
The behaviour of `dispense_drink` itself is external (imported from
`tool_definitions`), so its result is an input below. -/
def available_tools : List String := ["dispense_drink"]

/-- The shape of a Gemini response as the parsing code distinguishes it:
a function call with name and args, a response whose `function_call`
field is absent/falsy, or a malformed response for which indexing raises
(`AttributeError`/`IndexError`), with or without extractable text. -/
inductive OracleResponse where
  | functionCall (name : String) (args : List (String × PyVal))
  | noFunctionCall
  | malformed (hasText : Bool)

/-- `run_gemini_conversation` from `main.py`, as a function of the oracle
response and the (awaited) result of the `dispense_drink` call.  The
`asyncio.iscoroutine` branch awaits the same value that the synchronous
branch uses directly, so both are the single `dispense_result` input.
Returns the event trace and the exit code if the process exited. -/
def run_gemini_conversation (resp : OracleResponse) (dispense_result : PyVal)
    (user_prompt : String) : List Event × Option Nat :=
  match resp with
  | .functionCall name args =>
    if available_tools.contains name then
      let branch :=
        if pyEq dispense_result (.bool true) then execStmts success_branch
        else ([], Option.none)
      (Event.oracleCall user_prompt :: Event.actionCall name args ::
        Event.logFunctionResult :: branch.1, branch.2)
    else
      ([Event.oracleCall user_prompt, Event.logUnknownAction name], Option.none)
  | .noFunctionCall =>
    ([Event.oracleCall user_prompt, Event.logNoFunctionCall], Option.none)
  | .malformed hasText =>
    ([Event.oracleCall user_prompt,
      if hasText then Event.logText else Event.logNonText], Option.none)

/-- Python's `str.strip()`: remove leading and trailing whitespace
characters. -/
def pyStrip (s : String) : String :=
  ⟨((s.data.dropWhile Char.isWhitespace).reverse.dropWhile
      Char.isWhitespace).reverse⟩

/-- `get_last_line` from `main.py`: strip every line, keep the non-empty
ones, return the last (or `None` if there is none).  The file content is
its list of lines. -/
def get_last_line (lines : List String) : Option String :=
  let stripped := (lines.map pyStrip).filter (fun l => l != "")
  stripped.getLast?

/-- The watcher state of `main`: `last_mtime` (initially `None`) and
`last_processed_line` (initially the empty string). -/
structure WatchState where
  last_mtime : Option Nat
  last_processed_line : String
  deriving DecidableEq

/-- The monitored file as one poll cycle observes it: whether
`os.path.exists` succeeds, the modification time, and the lines. -/
structure FileState where
  present : Bool
  mtime : Nat
  lines : List String

/-- The external world of one iteration of the `while True` loop: the
file state, the oracle's response for the dispatched line (if any), and
the result the `dispense_drink` tool would return. -/
structure CycleEnv where
  fs : FileState
  resp : OracleResponse
  dispense_result : PyVal

/-- One iteration of the `while True` loop of `main` (lines 112-121):
existence check, mtime comparison, `get_last_line`, the
duplicate-line guard, and the dispatch.  Returns the new watcher state,
the dispatched utterance (if any), the events, and the exit code if the
process exited. -/
def poll_cycle (st : WatchState) (env : CycleEnv) :
    WatchState × Option String × List Event × Option Nat :=
  if env.fs.present then
    let mtime := env.fs.mtime
    if st.last_mtime = Option.none ∨ some mtime ≠ st.last_mtime then
      let st1 : WatchState := { st with last_mtime := some mtime }
      match get_last_line env.fs.lines with
      | some latest =>
        if latest != "" && latest != st1.last_processed_line then
          let st2 : WatchState := { st1 with last_processed_line := latest }
          let r := run_gemini_conversation env.resp env.dispense_result latest
          (st2, some latest, Event.pollCheck :: Event.readFile :: r.1, r.2)
        else
          (st1, Option.none, [Event.pollCheck, Event.readFile], Option.none)
      | Option.none =>
        (st1, Option.none, [Event.pollCheck, Event.readFile], Option.none)
    else
      (st, Option.none, [Event.pollCheck], Option.none)
  else
    (st, Option.none, [Event.pollCheck], Option.none)

/-- The `while True` loop of `main`, run over a finite schedule of cycle
environments.  The loop stops as soon as a cycle exits; otherwise it
consumes the whole schedule.  Returns the full event trace. -/
def main_loop (st : WatchState) : List CycleEnv → List Event
  | [] => []
  | env :: rest =>
    let r := poll_cycle st env
    match r.2.2.2 with
    | some _ => r.2.2.1
    | Option.none => r.2.2.1 ++ main_loop r.1 rest

/-- The initial watcher state of `main`: `last_mtime = None`,
`last_processed_line = ""`. -/
def initState : WatchState := ⟨Option.none, ""⟩

/-- Everything in a trace strictly after the first `exit` call. -/
def afterFirstExit : List Event → List Event
  | [] => []
  | .exitCall _ :: rest => rest
  | _ :: rest => afterFirstExit rest

/-- `true` when a trace contains no `exit` call. -/
def noExit : List Event → Bool
  | [] => true
  | .exitCall _ :: _ => false
  | _ :: rest => noExit rest

/-- `true` when every `exit` call in the trace carries status 0. -/
def allExitsZero : List Event → Bool
  | [] => true
  | .exitCall n :: rest => (n == 0) && allExitsZero rest
  | _ :: rest => allExitsZero rest

/-- `true` when the trace contains no flag-file write. -/
def noFlagWrite : List Event → Bool
  | [] => true
  | .flagWrite :: _ => false
  | _ :: rest => noFlagWrite rest

/-- Sanity of a (trace, exit code) pair: either the code is absent and the
trace has no exit call, or the code is 0, the exit call is the last event
and every exit call carries status 0.  In both cases the flag file is
never written. -/
def ExitOk (p : List Event × Option Nat) : Prop :=
  (p.2 = Option.none ∧ noExit p.1 = true ∧ noFlagWrite p.1 = true) ∨
  (p.2 = some 0 ∧ afterFirstExit p.1 = [] ∧ allExitsZero p.1 = true ∧
    noFlagWrite p.1 = true)

/-- The last-line selection exactly as the specification words it: the
last line of the file that is non-empty after stripping, with that
whitespace removed from the returned value. -/
def spec_last_line (lines : List String) : Option String :=
  ((lines.filter fun l => pyStrip l != "").getLast?).map pyStrip

/-- A concrete cycle whose oracle response names an unregistered action. -/
def envUnknown : CycleEnv :=
  ⟨⟨true, 1, ["hi"]⟩, .functionCall "make_coffee" [], PyVal.none⟩

/-- A concrete cycle whose oracle response is malformed without text. -/
def envMalformed : CycleEnv :=
  ⟨⟨true, 1, ["hi"]⟩, .malformed false, PyVal.none⟩

/-- A concrete cycle with a fresh line and no function call in response. -/
def envHello : CycleEnv :=
  ⟨⟨true, 1, ["hello"]⟩, .noFunctionCall, PyVal.none⟩

/-- A later concrete cycle: the file was touched again (new mtime) but its
last non-empty line is still `"hello"`. -/
def envHelloAgain : CycleEnv :=
  ⟨⟨true, 2, ["hello"]⟩, .noFunctionCall, PyVal.none⟩

/-- A concrete cycle that triggers a successful dispense. -/
def envSuccess : CycleEnv :=
  ⟨⟨true, 1, ["hi"]⟩, .functionCall "dispense_drink" [], PyVal.bool true⟩

/-- A concrete cycle whose file contains only blank lines. -/
def envBlank : CycleEnv :=
  ⟨⟨true, 3, ["", "  "]⟩, .noFunctionCall, PyVal.none⟩

/-! ## Helper lemmas -/

theorem noExit_append {a b : List Event} :
    noExit (a ++ b) = (noExit a && noExit b) := by
  induction a with
  | nil => simp [noExit]
  | cons e rest ih => cases e <;> simp [noExit, ih]

theorem allExitsZero_append {a b : List Event} :
    allExitsZero (a ++ b) = (allExitsZero a && allExitsZero b) := by
  induction a with
  | nil => simp [allExitsZero]
  | cons e rest ih => cases e <;> simp [allExitsZero, ih, Bool.and_assoc]

theorem noFlagWrite_append {a b : List Event} :
    noFlagWrite (a ++ b) = (noFlagWrite a && noFlagWrite b) := by
  induction a with
  | nil => simp [noFlagWrite]
  | cons e rest ih => cases e <;> simp [noFlagWrite, ih]

theorem allExitsZero_of_noExit {a : List Event} (h : noExit a = true) :
    allExitsZero a = true := by
  induction a with
  | nil => rfl
  | cons e rest ih =>
    cases e <;> simp [noExit] at h <;> simp [allExitsZero] <;> exact ih h

theorem afterFirstExit_append_of_noExit {a b : List Event}
    (h : noExit a = true) :
    afterFirstExit (a ++ b) = afterFirstExit b := by
  induction a with
  | nil => rfl
  | cons e rest ih =>
    cases e <;> simp [noExit] at h <;>
      simpa [afterFirstExit] using ih h

theorem get_last_line_ne_empty {lines : List String} {l : String}
    (h : get_last_line lines = some l) : l ≠ "" := by
  unfold get_last_line at h
  have hm := List.mem_of_getLast?_eq_some h
  have hf := (List.mem_filter.mp hm).2
  simpa using hf

theorem poll_cycle_absent {st : WatchState} {env : CycleEnv}
    (h : env.fs.present = false) :
    poll_cycle st env = (st, Option.none, [Event.pollCheck], Option.none) := by
  simp [poll_cycle, h]

theorem poll_cycle_unchanged {st : WatchState} {env : CycleEnv}
    (h : st.last_mtime = some env.fs.mtime) :
    poll_cycle st env = (st, Option.none, [Event.pollCheck], Option.none) := by
  by_cases hp : env.fs.present = true
  · simp [poll_cycle, hp, h]
  · exact poll_cycle_absent (by simpa using hp)

theorem poll_cycle_no_line {st : WatchState} {env : CycleEnv}
    (hp : env.fs.present = true)
    (hm : st.last_mtime ≠ some env.fs.mtime)
    (hg : get_last_line env.fs.lines = Option.none) :
    poll_cycle st env =
      ({ st with last_mtime := some env.fs.mtime }, Option.none,
        [Event.pollCheck, Event.readFile], Option.none) := by
  have hcond : st.last_mtime = Option.none ∨ some env.fs.mtime ≠ st.last_mtime :=
    Or.inr fun he => hm he.symm
  simp [poll_cycle, hp, hcond, hg]

theorem poll_cycle_no_dispatch {st : WatchState} {env : CycleEnv} {l : String}
    (hp : env.fs.present = true)
    (hm : st.last_mtime ≠ some env.fs.mtime)
    (hg : get_last_line env.fs.lines = some l)
    (hc : (l != "" && l != st.last_processed_line) = false) :
    poll_cycle st env =
      ({ st with last_mtime := some env.fs.mtime }, Option.none,
        [Event.pollCheck, Event.readFile], Option.none) := by
  have hcond : st.last_mtime = Option.none ∨ some env.fs.mtime ≠ st.last_mtime :=
    Or.inr fun he => hm he.symm
  simp [poll_cycle, hp, hcond, hg, hc]

theorem poll_cycle_dispatch {st : WatchState} {env : CycleEnv} {l : String}
    (hp : env.fs.present = true)
    (hm : st.last_mtime ≠ some env.fs.mtime)
    (hg : get_last_line env.fs.lines = some l)
    (hc : (l != "" && l != st.last_processed_line) = true) :
    poll_cycle st env =
      (⟨some env.fs.mtime, l⟩, some l,
        Event.pollCheck :: Event.readFile ::
          (run_gemini_conversation env.resp env.dispense_result l).1,
        (run_gemini_conversation env.resp env.dispense_result l).2) := by
  have hcond : st.last_mtime = Option.none ∨ some env.fs.mtime ≠ st.last_mtime :=
    Or.inr fun he => hm he.symm
  simp [poll_cycle, hp, hcond, hg, hc]

theorem run_gemini_ExitOk (resp : OracleResponse) (r : PyVal) (u : String) :
    ExitOk (run_gemini_conversation resp r u) := by
  cases resp with
  | functionCall name args =>
    rcases hc : available_tools.contains name with _ | _
    · have hc' : ¬ name ∈ available_tools := by simpa using hc
      left
      simp [run_gemini_conversation, hc', noExit, noFlagWrite]
    · have hc' : name ∈ available_tools := by simpa using hc
      rcases hs : pyEq r (.bool true) with _ | _
      · left
        simp [run_gemini_conversation, hc', hs, noExit, noFlagWrite]
      · right
        simp [run_gemini_conversation, hc', hs, execStmts, success_branch,
          afterFirstExit, allExitsZero, noFlagWrite]
  | noFunctionCall =>
    left
    simp [run_gemini_conversation, noExit, noFlagWrite]
  | malformed hasText =>
    left
    rcases hasText with _ | _ <;>
      simp [run_gemini_conversation, noExit, noFlagWrite]

theorem ExitOk_cons_poll_read {evs : List Event} {c : Option Nat}
    (h : ExitOk (evs, c)) :
    ExitOk (Event.pollCheck :: Event.readFile :: evs, c) := by
  rcases h with ⟨h1, h2, h3⟩ | ⟨h1, h2, h3, h4⟩
  · exact Or.inl ⟨h1, by simpa [noExit] using h2, by simpa [noFlagWrite] using h3⟩
  · exact Or.inr ⟨h1, by simpa [afterFirstExit] using h2,
      by simpa [allExitsZero] using h3, by simpa [noFlagWrite] using h4⟩

theorem poll_cycle_ExitOk (st : WatchState) (env : CycleEnv) :
    ExitOk ((poll_cycle st env).2.2) := by
  by_cases hp : env.fs.present = true
  · by_cases hm : st.last_mtime = some env.fs.mtime
    · rw [poll_cycle_unchanged hm]
      exact Or.inl ⟨rfl, rfl, rfl⟩
    · rcases hg : get_last_line env.fs.lines with _ | l
      · rw [poll_cycle_no_line hp hm hg]
        exact Or.inl ⟨rfl, rfl, rfl⟩
      · rcases hc : (l != "" && l != st.last_processed_line) with _ | _
        · rw [poll_cycle_no_dispatch hp hm hg hc]
          exact Or.inl ⟨rfl, rfl, rfl⟩
        · rw [poll_cycle_dispatch hp hm hg hc]
          exact ExitOk_cons_poll_read (run_gemini_ExitOk env.resp env.dispense_result l)
  · rw [poll_cycle_absent (by simpa using hp)]
    exact Or.inl ⟨rfl, rfl, rfl⟩

theorem main_loop_clean (st : WatchState) (envs : List CycleEnv) :
    afterFirstExit (main_loop st envs) = [] ∧
    allExitsZero (main_loop st envs) = true ∧
    noFlagWrite (main_loop st envs) = true := by
  induction envs generalizing st with
  | nil => exact ⟨rfl, rfl, rfl⟩
  | cons env rest ih =>
    rcases poll_cycle_ExitOk st env with ⟨h1, h2, h3⟩ | ⟨h1, h2, h3, h4⟩
    · have hml : main_loop st (env :: rest) =
          (poll_cycle st env).2.2.1 ++ main_loop (poll_cycle st env).1 rest := by
        simp [main_loop, h1]
      rw [hml]
      refine ⟨?_, ?_, ?_⟩
      · rw [afterFirstExit_append_of_noExit h2]
        exact (ih (poll_cycle st env).1).1
      · rw [allExitsZero_append, allExitsZero_of_noExit h2,
          (ih (poll_cycle st env).1).2.1]
        rfl
      · rw [noFlagWrite_append, h3, (ih (poll_cycle st env).1).2.2]
        rfl
    · have hml : main_loop st (env :: rest) = (poll_cycle st env).2.2.1 := by
        simp [main_loop, h1]
      rw [hml]
      exact ⟨h2, h3, h4⟩

theorem main_loop_continue {st : WatchState} {env : CycleEnv}
    (rest : List CycleEnv) (h : (poll_cycle st env).2.2.2 = Option.none) :
    main_loop st (env :: rest) =
      (poll_cycle st env).2.2.1 ++ main_loop (poll_cycle st env).1 rest := by
  simp [main_loop, h]

theorem main_loop_stop {st : WatchState} {env : CycleEnv}
    (rest : List CycleEnv) (h : (poll_cycle st env).2.2.2 ≠ Option.none) :
    main_loop st (env :: rest) = (poll_cycle st env).2.2.1 := by
  rcases hn : (poll_cycle st env).2.2.2 with _ | n
  · exact absurd hn h
  · simp [main_loop, hn]

/-! ## Claims -/

/-- C1: once a dispatched action returns the success sentinel the process
terminates immediately with a success status: in every trace of the main
loop nothing follows the first `exit` call (no poll, no oracle call, no
action invocation), every exit carries status 0, and when a cycle exits,
the remaining schedule — including any second success-triggering
utterance — is never processed. -/
theorem terminates_immediately_on_success (st : WatchState)
    (envs : List CycleEnv) :
    afterFirstExit (main_loop st envs) = [] ∧
    allExitsZero (main_loop st envs) = true ∧
    ∀ env rest, (poll_cycle st env).2.2.2 ≠ Option.none →
      main_loop st (env :: rest) = (poll_cycle st env).2.2.1 := by
  exact ⟨(main_loop_clean st envs).1, (main_loop_clean st envs).2.1,
    fun env rest h => main_loop_stop rest h⟩

/-- Witness for C1: a schedule with a successful dispense followed by a
further utterance stops at the first success and never runs the rest. -/
theorem terminates_immediately_on_success_witness :
    afterFirstExit (main_loop initState [envSuccess, envHello]) = [] ∧
    main_loop initState (envSuccess :: [envHello]) =
      (poll_cycle initState envSuccess).2.2.1 := by
  exact ⟨(terminates_immediately_on_success initState [envSuccess, envHello]).1,
    (terminates_immediately_on_success initState [envSuccess, envHello]).2.2
      envSuccess [envHello] (by decide)⟩

/-- C8: the flag file `dispense_done.flag` is never written in any
execution of the loop; the write statement stands after the unconditional
`exit(0)` in the success branch, so executing that branch emits the
success log and the exit call but never the flag write. -/
theorem flag_file_never_written (st : WatchState) (envs : List CycleEnv) :
    noFlagWrite (main_loop st envs) = true ∧
    execStmts success_branch = ([Event.logSuccess, Event.exitCall 0], some 0) := by
  exact ⟨(main_loop_clean st envs).2.2, rfl⟩

/-- C2, counterexample: the claim says any truthy value other than the
boolean `True` — in particular the integer `1` — is treated as failure,
but the dispatch code's `result == True` test succeeds on the Python
integer `1` (which is not the boolean `True`), so the process exits 0. -/
theorem success_check_not_strict_equality :
    (run_gemini_conversation (.functionCall "dispense_drink" [])
        (PyVal.int 1) "I want a drink").2 = some 0 ∧
    PyVal.int 1 ≠ PyVal.bool true := by
  exact ⟨by decide, by decide⟩

/-- C2, amended: dispatch treats an action result as a successful dispense
(terminating the process with status 0) if and only if the result compares
equal to `True` under Python `==` — that is, the boolean `True` or a
numeric value equal to 1, such as the integer `1`; every other value,
including `False`, `None`, strings and other integers, is treated as
failure and does not terminate the process. -/
theorem success_iff_python_eq_true (r : PyVal)
    (args : List (String × PyVal)) (u : String) :
    (run_gemini_conversation (.functionCall "dispense_drink" args) r u).2
        = some 0 ↔
      (r = PyVal.bool true ∨ r = PyVal.int 1) := by
  have hc : "dispense_drink" ∈ available_tools := by decide
  cases r with
  | none => simp [run_gemini_conversation, hc, pyEq, PyVal.toIntVal]
  | bool b =>
    cases b <;>
      simp [run_gemini_conversation, hc, pyEq, PyVal.toIntVal, execStmts,
        success_branch]
  | int n =>
    by_cases h : n = 1
    · subst h
      simp [run_gemini_conversation, hc, pyEq, PyVal.toIntVal, execStmts,
        success_branch]
    · simp [run_gemini_conversation, hc, pyEq, PyVal.toIntVal, h, execStmts]
  | str s => simp [run_gemini_conversation, hc, pyEq, PyVal.toIntVal]

theorem poll_cycle_dispatch_inv (st : WatchState) (env : CycleEnv) (u : String)
    (hu : (poll_cycle st env).2.1 = some u) :
    (poll_cycle st env).1 = ⟨some env.fs.mtime, u⟩ ∧
    get_last_line env.fs.lines = some u := by
  by_cases hp : env.fs.present = true
  · by_cases hm : st.last_mtime = some env.fs.mtime
    · rw [poll_cycle_unchanged hm] at hu
      simp at hu
    · rcases hg : get_last_line env.fs.lines with _ | l
      · rw [poll_cycle_no_line hp hm hg] at hu
        simp at hu
      · rcases hc : (l != "" && l != st.last_processed_line) with _ | _
        · rw [poll_cycle_no_dispatch hp hm hg hc] at hu
          simp at hu
        · rw [poll_cycle_dispatch hp hm hg hc] at hu ⊢
          simp only [Option.some.injEq] at hu
          subst hu
          exact ⟨rfl, rfl⟩
  · rw [poll_cycle_absent (by simpa using hp)] at hu
    simp at hu

theorem poll_cycle_code_none (st : WatchState) (env : CycleEnv)
    (h : ∀ u, (run_gemini_conversation env.resp env.dispense_result u).2 =
      Option.none) :
    (poll_cycle st env).2.2.2 = Option.none := by
  by_cases hp : env.fs.present = true
  · by_cases hm : st.last_mtime = some env.fs.mtime
    · rw [poll_cycle_unchanged hm]
    · rcases hg : get_last_line env.fs.lines with _ | l
      · rw [poll_cycle_no_line hp hm hg]
      · rcases hc : (l != "" && l != st.last_processed_line) with _ | _
        · rw [poll_cycle_no_dispatch hp hm hg hc]
        · rw [poll_cycle_dispatch hp hm hg hc]
          exact h l
  · rw [poll_cycle_absent (by simpa using hp)]

/-- C4: polling is idempotent when the file is absent or its modification
time is unchanged since the last successful poll: the cycle produces no
utterance, performs no file read (only the existence/mtime check event),
and leaves the watcher state unchanged. -/
theorem poll_idempotent_when_unchanged (st : WatchState) (env : CycleEnv)
    (h : env.fs.present = false ∨ st.last_mtime = some env.fs.mtime) :
    poll_cycle st env = (st, Option.none, [Event.pollCheck], Option.none) := by
  rcases h with h | h
  · exact poll_cycle_absent h
  · exact poll_cycle_unchanged h

/-- Witness for C4: a second poll with the same mtime does nothing. -/
theorem poll_idempotent_when_unchanged_witness :
    poll_cycle ⟨some 1, "hello"⟩ envHello =
      (⟨some 1, "hello"⟩, Option.none, [Event.pollCheck], Option.none) :=
  poll_idempotent_when_unchanged ⟨some 1, "hello"⟩ envHello (Or.inr rfl)

/-- C5: if the modification time changed but the last non-empty line
equals the previously processed line, no utterance is produced and no
dispatch occurs; only the stored mtime is refreshed. -/
theorem duplicate_line_suppressed (st : WatchState) (env : CycleEnv)
    (hp : env.fs.present = true)
    (hm : st.last_mtime ≠ some env.fs.mtime)
    (hl : get_last_line env.fs.lines = some st.last_processed_line) :
    poll_cycle st env =
      ({ st with last_mtime := some env.fs.mtime }, Option.none,
        [Event.pollCheck, Event.readFile], Option.none) := by
  apply poll_cycle_no_dispatch hp hm hl
  simp

/-- Witness for C5: the file is touched (mtime 1 → 2) but the last line
is still `"hello"`; nothing is dispatched. -/
theorem duplicate_line_suppressed_witness :
    poll_cycle ⟨some 1, "hello"⟩ envHelloAgain =
      (⟨some 2, "hello"⟩, Option.none,
        [Event.pollCheck, Event.readFile], Option.none) :=
  duplicate_line_suppressed ⟨some 1, "hello"⟩ envHelloAgain rfl
    (by decide) (by decide)

/-- C9: on the very first poll (initial state: no stored mtime, empty
processed line), an existing file is treated as changed, so its last
non-empty line — written before the process started — is dispatched
immediately. -/
theorem first_poll_dispatches_existing_line (env : CycleEnv) (l : String)
    (hp : env.fs.present = true)
    (hl : get_last_line env.fs.lines = some l) :
    poll_cycle initState env =
      (⟨some env.fs.mtime, l⟩, some l,
        Event.pollCheck :: Event.readFile ::
          (run_gemini_conversation env.resp env.dispense_result l).1,
        (run_gemini_conversation env.resp env.dispense_result l).2) := by
  have hm : initState.last_mtime ≠ some env.fs.mtime := by
    simp [initState]
  apply poll_cycle_dispatch hp hm hl
  have hne := get_last_line_ne_empty hl
  simp [initState, hne]

/-- Witness for C9: a pre-existing file containing `"hello"` is
dispatched on the first poll. -/
theorem first_poll_dispatches_existing_line_witness :
    poll_cycle initState envHello =
      (⟨some 1, "hello"⟩, some "hello",
        Event.pollCheck :: Event.readFile ::
          (run_gemini_conversation envHello.resp envHello.dispense_result
            "hello").1,
        (run_gemini_conversation envHello.resp envHello.dispense_result
          "hello").2) :=
  first_poll_dispatches_existing_line envHello "hello" rfl (by decide)

/-- C3: the watcher state is mutated only when the file is present and a
modification-time change was detected (the branch in which the file is
read); when an utterance is produced, both `last_mtime` and
`last_processed_line` are already updated in the state that any later
poll sees, so a slow downstream dispatch cannot lead to a duplicate
dispatch of the same line on a subsequent poll, even if the file's mtime
changes again with the same content. -/
theorem watch_state_updated_before_dispatch (st : WatchState)
    (env : CycleEnv) :
    ((poll_cycle st env).1 ≠ st →
      env.fs.present = true ∧ st.last_mtime ≠ some env.fs.mtime) ∧
    (∀ u, (poll_cycle st env).2.1 = some u →
      (poll_cycle st env).1 = ⟨some env.fs.mtime, u⟩) ∧
    (∀ u env', (poll_cycle st env).2.1 = some u →
      get_last_line env'.fs.lines = some u →
      (poll_cycle (poll_cycle st env).1 env').2.1 = Option.none) := by
  refine ⟨?_, ?_, ?_⟩
  · intro hne
    by_cases hp : env.fs.present = true
    · by_cases hm : st.last_mtime = some env.fs.mtime
      · rw [poll_cycle_unchanged hm] at hne
        exact absurd rfl hne
      · exact ⟨hp, hm⟩
    · rw [poll_cycle_absent (by simpa using hp)] at hne
      exact absurd rfl hne
  · intro u hu
    exact (poll_cycle_dispatch_inv st env u hu).1
  · intro u env' hu hl'
    rw [(poll_cycle_dispatch_inv st env u hu).1]
    by_cases hp' : env'.fs.present = true
    · by_cases hm' : (⟨some env.fs.mtime, u⟩ : WatchState).last_mtime =
          some env'.fs.mtime
      · rw [poll_cycle_unchanged hm']
      · rw [poll_cycle_no_dispatch hp' hm' hl' (by simp)]
    · rw [poll_cycle_absent (by simpa using hp')]

/-- Witness for C3: after the first poll dispatches `"hello"`, the state
already records it, and a second poll with a new mtime but the same line
dispatches nothing. -/
theorem watch_state_updated_before_dispatch_witness :
    (poll_cycle initState envHello).1 = ⟨some 1, "hello"⟩ ∧
    (poll_cycle (poll_cycle initState envHello).1 envHelloAgain).2.1 =
      Option.none := by
  exact ⟨(watch_state_updated_before_dispatch initState envHello).2.1
      "hello" (by decide),
    (watch_state_updated_before_dispatch initState envHello).2.2
      "hello" envHelloAgain (by decide) (by decide)⟩

/-- C10: `get_last_line` agrees with the specification's description —
it returns the last line that is non-empty after stripping leading and
trailing whitespace, with that whitespace removed; on an empty or
blank-only file it returns `None`, and in that case the poll dispatches
nothing and the process does not exit. -/
theorem get_last_line_meets_spec :
    (∀ lines, get_last_line lines = spec_last_line lines) ∧
    (∀ lines, (∀ l ∈ lines, pyStrip l = "") →
      get_last_line lines = Option.none) ∧
    (∀ st env, get_last_line env.fs.lines = Option.none →
      (poll_cycle st env).2.1 = Option.none ∧
      (poll_cycle st env).2.2.2 = Option.none) := by
  refine ⟨?_, ?_, ?_⟩
  · intro lines
    unfold get_last_line spec_last_line
    rw [List.filter_map, List.getLast?_map]
    rfl
  · intro lines h
    unfold get_last_line
    have hnil : (lines.map pyStrip).filter (fun l => l != "") = [] := by
      rw [List.filter_eq_nil_iff]
      intro a ha
      rcases List.mem_map.mp ha with ⟨x, hx, rfl⟩
      simp [h x hx]
    simp [hnil]
  · intro st env hg
    by_cases hp : env.fs.present = true
    · by_cases hm : st.last_mtime = some env.fs.mtime
      · rw [poll_cycle_unchanged hm]
        exact ⟨rfl, rfl⟩
      · rw [poll_cycle_no_line hp hm hg]
        exact ⟨rfl, rfl⟩
    · rw [poll_cycle_absent (by simpa using hp)]
      exact ⟨rfl, rfl⟩

/-- Witness for C10: a file with a padded line, a blank-only file, and a
poll on the blank-only file. -/
theorem get_last_line_meets_spec_witness :
    get_last_line ["  hi ", " "] = spec_last_line ["  hi ", " "] ∧
    get_last_line ["", "  "] = Option.none ∧
    (poll_cycle initState envBlank).2.1 = Option.none := by
  exact ⟨(get_last_line_meets_spec).1 ["  hi ", " "],
    (get_last_line_meets_spec).2.1 ["", "  "] (by decide),
    ((get_last_line_meets_spec).2.2 initState envBlank (by decide)).1⟩

/-- C6: an oracle response selecting an action name absent from the tool
registry logs an unknown-action error, invokes no action, does not exit,
and the loop continues with the next poll cycle of the schedule. -/
theorem unknown_action_nonfatal (name : String)
    (args : List (String × PyVal)) (r : PyVal) (u : String)
    (h : available_tools.contains name = false) :
    run_gemini_conversation (.functionCall name args) r u =
      ([Event.oracleCall u, Event.logUnknownAction name], Option.none) ∧
    ∀ st env rest, env.resp = .functionCall name args →
      (poll_cycle st env).2.2.2 = Option.none ∧
      main_loop st (env :: rest) =
        (poll_cycle st env).2.2.1 ++ main_loop (poll_cycle st env).1 rest := by
  have h' : ¬ name ∈ available_tools := by simpa using h
  have hrun : ∀ r' u',
      run_gemini_conversation (.functionCall name args) r' u' =
        ([Event.oracleCall u', Event.logUnknownAction name], Option.none) := by
    intro r' u'
    simp [run_gemini_conversation, h']
  refine ⟨hrun r u, ?_⟩
  intro st env rest henv
  have hcode : (poll_cycle st env).2.2.2 = Option.none := by
    apply poll_cycle_code_none
    intro u'
    rw [henv, hrun]
  exact ⟨hcode, main_loop_continue rest hcode⟩

/-- Witness for C6: the oracle names `"make_coffee"`, which is not in the
registry; the call is logged, nothing is invoked, and the loop goes on. -/
theorem unknown_action_nonfatal_witness :
    run_gemini_conversation (.functionCall "make_coffee" []) PyVal.none "x" =
      ([Event.oracleCall "x", Event.logUnknownAction "make_coffee"],
        Option.none) ∧
    main_loop initState (envUnknown :: []) =
      (poll_cycle initState envUnknown).2.2.1 ++
        main_loop (poll_cycle initState envUnknown).1 [] := by
  exact ⟨(unknown_action_nonfatal "make_coffee" [] PyVal.none "x"
      (by decide)).1,
    ((unknown_action_nonfatal "make_coffee" [] PyVal.none "x"
      (by decide)).2 initState envUnknown [] rfl).2⟩

/-- C7: a malformed oracle response (parsing raises, with or without
extractable text) is handled non-fatally: it is only logged, no action is
invoked, no exit happens, and the loop continues with the next poll
cycle. -/
theorem malformed_response_nonfatal (hasText : Bool) (r : PyVal)
    (u : String) :
    run_gemini_conversation (.malformed hasText) r u =
      ([Event.oracleCall u,
        if hasText then Event.logText else Event.logNonText],
        Option.none) ∧
    ∀ st env rest, env.resp = .malformed hasText →
      (poll_cycle st env).2.2.2 = Option.none ∧
      main_loop st (env :: rest) =
        (poll_cycle st env).2.2.1 ++ main_loop (poll_cycle st env).1 rest := by
  refine ⟨rfl, ?_⟩
  intro st env rest henv
  have hcode : (poll_cycle st env).2.2.2 = Option.none := by
    apply poll_cycle_code_none
    intro u'
    rw [henv]
    rfl
  exact ⟨hcode, main_loop_continue rest hcode⟩

/-- Witness for C7: a malformed response without text is logged and the
loop continues. -/
theorem malformed_response_nonfatal_witness :
    run_gemini_conversation (.malformed false) PyVal.none "x" =
      ([Event.oracleCall "x", Event.logNonText], Option.none) ∧
    main_loop initState (envMalformed :: []) =
      (poll_cycle initState envMalformed).2.2.1 ++
        main_loop (poll_cycle initState envMalformed).1 [] := by
  refine ⟨?_, ((malformed_response_nonfatal false PyVal.none "x").2
    initState envMalformed [] rfl).2⟩
  have hbase := (malformed_response_nonfatal false PyVal.none "x").1
  simpa using hbase
